import Mathlib

set_option maxHeartbeats 1000000
set_option maxRecDepth 8000

/-!
# Verification of the TechMentor voice-assistant pipeline

A shallow embedding of the orchestration code of the voice-driven Q&A
pipeline (documentation client, query classifier, response generator,
voice-query route, text-to-speech route), together with theorems settling
the behavioural claims about it.

Modelling conventions:
* JavaScript strings are handled through `String.toList`; all string
  processing is done on `List Char` so every definition is executable and
  kernel-reducible.  The inputs exercised here are ASCII, where the
  JavaScript semantics (`toLowerCase`, `trim`, `includes`, `split`, …)
  coincide with the character-level models below.
* External HTTP calls are modelled by explicit outcome values supplied as
  parameters (`FetchOutcome`, environment functions): the network is an
  oracle, the code under verification is everything around it.
* `JSON.parse` followed by the optional-chaining field access
  `data?.result?.content?.[0]?.text` is modelled by a universally
  quantified function `extract : String → Option String`; `none` models a
  parse exception, `some ""` a parsed body with a missing/empty text field.
* JavaScript `Array.prototype.sort` (stable since ES2019) with comparator
  `(a, b) => b.score - a.score` is modelled by a stable insertion sort in
  descending score order; any two stable sorts agree, so the model is
  extensionally faithful.
-/

namespace TechMentor

/-! ## Character-list string primitives -/

/-- JavaScript `toLowerCase` (ASCII). -/
def lowerL (l : List Char) : List Char := l.map Char.toLower

/-- JavaScript `trim`: drop whitespace from both ends. -/
def trimL (l : List Char) : List Char :=
  ((l.dropWhile Char.isWhitespace).reverse.dropWhile Char.isWhitespace).reverse

/-- JavaScript `hay.includes(pat)`: substring containment. -/
def containsL : List Char → List Char → Bool
  | [], pat => pat.isEmpty
  | c :: cs, pat => pat.isPrefixOf (c :: cs) || containsL cs pat

/-- `String`-level substring containment. -/
def strContains (s pat : String) : Bool := containsL s.toList pat.toList

/-- Split at every character satisfying `p` (JavaScript `split` with a
single-character separator class; runs of separators yield empty fields). -/
def splitByP (p : Char → Bool) : List Char → List (List Char)
  | [] => [[]]
  | c :: cs =>
    match splitByP p cs with
    | [] => [[]]
    | g :: gs => if p c then [] :: g :: gs else (c :: g) :: gs

/-- JavaScript `s.split(sep)` for a one-character separator. -/
def splitOnCh (sep : Char) : List Char → List (List Char) :=
  splitByP (fun c => c == sep)

/-- JavaScript `s.split(/\s+/)`.  Splitting at each whitespace character
yields extra empty fields for whitespace runs compared to the regex, but
every caller filters tokens by length afterwards, discarding them. -/
def splitWs : List Char → List (List Char) :=
  splitByP Char.isWhitespace

/-- JavaScript `Array.prototype.join(sep)`. -/
def joinWith (sep : String) : List String → String
  | [] => ""
  | [x] => x
  | x :: xs => x ++ sep ++ joinWith sep xs

/-! ## External-call outcomes -/

/-- Outcome of one `fetch` to an external HTTP service: a response with a
status code and a body text, or a thrown error (network failure/timeout). -/
inductive FetchOutcome where
  | resp (status : Nat) (body : String)
  | exn
deriving DecidableEq

/-- JavaScript `response.ok`: status in the 2xx range. -/
def statusOk (status : Nat) : Bool := 200 ≤ status && status ≤ 299

/-! ## Documentation client (`src/lib/voice-assistant/mcp-client.ts`) -/

/-- `{ documentation, libraries }` (`MCPSearchResult` in `types.ts`). -/
structure MCPSearchResult where
  documentation : String
  libraries : List String
deriving DecidableEq

namespace MCPClient

/-- SSE-chunk extraction shared by `findLibraries` and `getDocumentation`:
split the body on newlines, keep lines starting with `"data: "`, drop the
prefix and trim, and discard empty lines and `"[DONE]"` sentinels. -/
def sseDataLines (body : List Char) : List (List Char) :=
  (((splitOnCh '\n' body).filter
      (fun line => "data: ".toList.isPrefixOf line)).map
    (fun line => trimL (line.drop 6))).filter
    (fun line => !line.isEmpty && line != "[DONE]".toList)

/-- Character class of the regex `[a-zA-Z0-9_-]` (organisation segment). -/
def isOrgChar (c : Char) : Bool := c.isAlphanum || c == '_' || c == '-'

/-- Character class of the regex `[a-zA-Z0-9_.-]` (repository segment). -/
def isRepoChar (c : Char) : Bool := c.isAlphanum || c == '_' || c == '.' || c == '-'

/-- Try to match `[a-zA-Z0-9_-]+\/[a-zA-Z0-9_.-]+` at the start of `cs`
(the text just after a `'/'`).  Returns the full matched identifier
(including the leading slash) and the remaining text after the match.
Both `+` repetitions are greedy; since neither class contains `'/'`, the
maximal run is the only viable one, so no backtracking is needed. -/
def matchIdAt (cs : List Char) : Option (List Char × List Char) :=
  let org := cs.takeWhile isOrgChar
  if org.isEmpty then none
  else
    match cs.dropWhile isOrgChar with
    | '/' :: cs2 =>
      let repo := cs2.takeWhile isRepoChar
      if repo.isEmpty then none
      else some ('/' :: org ++ '/' :: repo, cs2.dropWhile isRepoChar)
    | _ => none

/-- Fuel-indexed scanner behind `extractIds`.  Every scanner in this file
that advances by a variable amount recurses structurally on a fuel
argument, so the definition stays kernel-reducible; each step consumes at
least one character, so `length + 1` fuel never runs out and the `0` case
is unreachable. -/
def extractIdsF : Nat → List Char → List (List Char)
  | 0, _ => []
  | _ + 1, [] => []
  | fuel + 1, c :: cs =>
    if c = '/' then
      match matchIdAt cs with
      | some (ident, rest) => ident :: extractIdsF fuel rest
      | none => extractIdsF fuel cs
    else extractIdsF fuel cs

/-- Global matching of the regex `\/[a-zA-Z0-9_-]+\/[a-zA-Z0-9_.-]+` on
`content` (`content.match(/.../g)`): successive leftmost non-overlapping
matches; on a failed attempt the scan restarts one character further on. -/
def extractIds (l : List Char) : List (List Char) :=
  extractIdsF (l.length + 1) l

/-- The post-extraction filter `\.(js|ts|json|md)$`. -/
def hasCodeFileExt (m : List Char) : Bool :=
  [".js", ".ts", ".json", ".md"].any (fun e => e.toList.isSuffixOf m)

/-- `MCPClient.findLibraries`: resolve the query to candidate library
identifiers.  Returns `[]` on a thrown fetch error, a non-2xx status, a
body without SSE data chunks, a JSON parse failure (`extract _ = none`,
caught by the surrounding `try`), or zero extracted identifiers. -/
def findLibraries (extract : String → Option String) (o : FetchOutcome) :
    List String :=
  match o with
  | .exn => []
  | .resp status body =>
    if !statusOk status then []
    else
      let dataLines := sseDataLines body.toList
      if dataLines.isEmpty then []
      else
        match extract (String.mk (dataLines.getLastD [])) with
        | none => []
        | some content =>
          ((extractIds content.toList).filter
            (fun m => !hasCodeFileExt m && m != "/org/project".toList)).map
            String.mk

/-- The curated `officialOrgs` list of `selectTopLibraries`. -/
def officialOrgs : List String :=
  ["better-auth", "vercel", "nextjs", "facebook", "vuejs", "drizzle-team"]

/-- The score assigned to one candidate identifier by
`MCPClient.selectTopLibraries` (the body of the `libraryIds.map` callback).
`org`/`repo` are the second and third fields of `id.split("/")`; candidate
identifiers produced by `findLibraries` always have the shape
`/org/repo`, for which `getD _ []` agrees with the JavaScript
destructuring. -/
def libraryScore (query ident : String) : Int :=
  let queryLower := lowerL query.toList
  let parts := splitOnCh '/' ident.toList
  let org := parts.getD 1 []
  let repo := parts.getD 2 []
  let idLower := lowerL ident.toList
  let s : Int := 0
  -- PRIORITY: Exact library name matches
  let s := if (containsL queryLower "better auth".toList
                || containsL queryLower "betterauth".toList)
              && (containsL idLower "better-auth".toList
                || org == "better-auth".toList)
           then s + 100 else s
  let s := if (containsL queryLower "nextjs".toList
                || containsL queryLower "next.js".toList)
              && (org == "vercel".toList || org == "nextjs".toList
                || containsL repo "nextjs".toList)
           then s + 80 else s
  let s := if containsL queryLower "drizzle".toList
              && (org == "drizzle-team".toList || containsL repo "drizzle".toList)
           then s + 100 else s
  -- Official organizations
  let s := if (officialOrgs.map String.toList).contains org then s + 50 else s
  -- Documentation repos
  let s := if repo == "docs".toList || containsL repo "documentation".toList
           then s + 30 else s
  -- Penalize wrong libraries heavily
  let s := if containsL queryLower "better auth".toList
              && containsL idLower "auth0".toList then s - 50 else s
  let s := if containsL queryLower "better auth".toList
              && containsL idLower "nextauth".toList then s - 50 else s
  -- Avoid examples/demos
  let s := if containsL repo "example".toList || containsL repo "demo".toList
              || containsL repo "starter".toList then s - 40 else s
  -- General keyword matching: +10 per keyword of length > 2 found in the id
  s + 10 * (((splitWs queryLower).filter
      (fun k => k.length > 2 && containsL idLower k)).length : Int)

/-- Stable sort in descending score order, modelling the ES2019-stable
`scored.sort((a, b) => b.score - a.score)`: insertion sort places each
element before the first later element of `≤` score, so elements of equal
score keep their input order. -/
def sortScoredDesc (l : List (String × Int)) : List (String × Int) :=
  List.insertionSort (fun a b => b.2 ≤ a.2) l

/-- `MCPClient.selectTopLibraries`: score, sort descending (stable), take
the top `MAX_LIBRARIES = 2`, return the identifiers. -/
def selectTopLibraries (libraryIds : List String) (query : String) :
    List String :=
  let scored := libraryIds.map (fun i => (i, libraryScore query i))
  ((sortScoredDesc scored).take 2).map Prod.fst

/-- The `=== Documentation from <id> ===` source marker prepended to each
successful per-library fetch. -/
def docMarker (libraryId content : String) : String :=
  "\n=== Documentation from " ++ libraryId ++ " ===\n" ++ content

/-- One per-library fetch of `MCPClient.getDocumentation` (the body of the
`docPromises` callback): `none` models a settled-but-failed fetch (thrown
error, non-2xx status, missing SSE chunk, parse failure, or empty
content), `some` a successful fetch tagged with its source marker. -/
def docEntry (extract : String → Option String) (env : String → FetchOutcome)
    (libraryId : String) : Option String :=
  match env libraryId with
  | .exn => none
  | .resp status body =>
    if statusOk status then
      let dataLines := sseDataLines body.toList
      if dataLines.isEmpty then none
      else
        match extract (String.mk (dataLines.getLastD [])) with
        | none => none
        | some content =>
          if content = "" then none else some (docMarker libraryId content)
    else none

/-- `MCPClient.getDocumentation`: fan-out over the selected identifiers,
`Promise.allSettled` fan-in (every outcome is awaited; failures contribute
nothing), fulfilled values joined with `"\n"` in input order. -/
def getDocumentation (extract : String → Option String)
    (env : String → FetchOutcome) (libraryIds : List String) : String :=
  joinWith "\n" (libraryIds.filterMap (docEntry extract env))

/-- The scoring rule exactly as claim C2 words it, for comparison with
`libraryScore`: +50 official organisation, +30 canonical-documentation
repository, +40 loose repository/query match, −40
example/demo/starter/boilerplate/template, +10 per shared keyword token
longer than 2 characters, +100 for the exact-known special cases.  "Loosely
matches" is read as one lowercased name containing the other. -/
def claimRankScore (query ident : String) : Int :=
  let queryLower := lowerL query.toList
  let parts := splitOnCh '/' ident.toList
  let org := parts.getD 1 []
  let repo := parts.getD 2 []
  let idLower := lowerL ident.toList
  (if (officialOrgs.map String.toList).contains org then 50 else 0)
  + (if repo == "docs".toList || containsL repo "documentation".toList then 30 else 0)
  + (if containsL queryLower (lowerL repo) || containsL (lowerL repo) queryLower
     then 40 else 0)
  + (if containsL repo "example".toList || containsL repo "demo".toList
        || containsL repo "starter".toList || containsL repo "boilerplate".toList
        || containsL repo "template".toList
     then -40 else 0)
  + 10 * (((splitWs queryLower).filter
      (fun k => k.length > 2 && containsL idLower k)).length : Int)
  + (if (containsL queryLower "better auth".toList
          || containsL queryLower "betterauth".toList)
        && (containsL idLower "better-auth".toList || org == "better-auth".toList)
     then 100 else 0)
  + (if (containsL queryLower "nextjs".toList || containsL queryLower "next.js".toList)
        && (org == "vercel".toList || org == "nextjs".toList
          || containsL repo "nextjs".toList)
     then 100 else 0)
  + (if containsL queryLower "drizzle".toList
        && (org == "drizzle-team".toList || containsL repo "drizzle".toList)
     then 100 else 0)

/-- The candidate selection exactly as claim C2 words it: rank by
`claimRankScore`, stable-sort descending, keep the top 2. -/
def claimSelectTopLibraries (libraryIds : List String) (query : String) :
    List String :=
  ((sortScoredDesc (libraryIds.map (fun i => (i, claimRankScore query i)))).take 2).map
    Prod.fst

/-- The scoring table actually implemented, written as a flat sum of
independent bonuses (the amended form of claim C2); proved equal to the
sequential accumulation `libraryScore` below. -/
def amendedRankScore (query ident : String) : Int :=
  let queryLower := lowerL query.toList
  let parts := splitOnCh '/' ident.toList
  let org := parts.getD 1 []
  let repo := parts.getD 2 []
  let idLower := lowerL ident.toList
  (if (containsL queryLower "better auth".toList
        || containsL queryLower "betterauth".toList)
      && (containsL idLower "better-auth".toList || org == "better-auth".toList)
   then 100 else 0)
  + (if (containsL queryLower "nextjs".toList || containsL queryLower "next.js".toList)
        && (org == "vercel".toList || org == "nextjs".toList
          || containsL repo "nextjs".toList)
     then 80 else 0)
  + (if containsL queryLower "drizzle".toList
        && (org == "drizzle-team".toList || containsL repo "drizzle".toList)
     then 100 else 0)
  + (if (officialOrgs.map String.toList).contains org then 50 else 0)
  + (if repo == "docs".toList || containsL repo "documentation".toList then 30 else 0)
  + (if containsL queryLower "better auth".toList && containsL idLower "auth0".toList
     then -50 else 0)
  + (if containsL queryLower "better auth".toList && containsL idLower "nextauth".toList
     then -50 else 0)
  + (if containsL repo "example".toList || containsL repo "demo".toList
        || containsL repo "starter".toList
     then -40 else 0)
  + 10 * (((splitWs queryLower).filter
      (fun k => k.length > 2 && containsL idLower k)).length : Int)

/-- `MCPClient.search`: resolve then fetch; an empty candidate list (or any
caught error) degrades to `{ documentation: "", libraries: [] }`. -/
def search (extract : String → Option String) (resolveOut : FetchOutcome)
    (docEnv : String → FetchOutcome) (query : String) : MCPSearchResult :=
  let libraryIds := findLibraries extract resolveOut
  if libraryIds.isEmpty then ⟨"", []⟩
  else
    let topLibraries := selectTopLibraries libraryIds query
    ⟨getDocumentation extract docEnv topLibraries, topLibraries⟩

end MCPClient

/-! ## Query classifier (`src/lib/voice-assistant/query-corrector.ts`,
`src/lib/voice-assistant/types.ts`) -/

/-- The fixed phrase list `CONVERSATIONAL_PHRASES` of `types.ts`. -/
def CONVERSATIONAL_PHRASES : List String :=
  ["hello", "hi", "hey", "can you hear me", "test", "testing",
   "how are you", "are you there", "are you working", "am i audible"]

namespace QueryCorrector

/-- `QueryCorrector.isConversational`: lower-case and trim the query, then
check whether any conversational phrase occurs as a substring. -/
def isConversational (query : String) : Bool :=
  let lowerQuery := trimL (lowerL query.toList)
  CONVERSATIONAL_PHRASES.any (fun phrase => containsL lowerQuery phrase.toList)

end QueryCorrector

/-! ## Response generator (`src/lib/voice-assistant/response-generator.ts`) -/

/-- `ProcessingContext` from `types.ts`. -/
structure ProcessingContext where
  query : String
  correctedQuery : String
  documentation : String
  libraries : List String
  isConversational : Bool

namespace ResponseGenerator

def MAX_CONTEXT_CHARS : Nat := 8000

/-- The fixed phrase→reply table of `generateConversationalResponse`, in
the source's insertion order (`Object.entries` iterates in that order). -/
def conversationalReplies : List (String × String) :=
  [("hello", "Hello! I'm your TechMentor voice assistant, ready to help with any programming questions!"),
   ("hi", "Hi there! I'm here to help with technical questions about frameworks, programming languages, and more!"),
   ("hey", "Hey! Ready to assist with any technology questions you have!"),
   ("can you hear me", "Yes, I can hear you perfectly! I'm ready to help with technical questions."),
   ("am i audible", "Yes, you're coming through crystal clear! What technology would you like to learn about?"),
   ("test", "Test successful! I'm working great and ready for your technical questions."),
   ("testing", "Testing confirmed - everything is working perfectly! What can I help you with?"),
   ("how are you", "I'm functioning perfectly and ready to help with your programming questions!"),
   ("are you there", "I'm here and ready to help! Ask me about any technology or programming topic."),
   ("are you working", "Yes, I'm working perfectly! What technology topic interests you today?")]

/-- The generic greetings used when no table phrase matches. -/
def defaultResponses : List String :=
  ["Hello! I'm your TechMentor voice assistant. I'm here and ready to help you with any programming or technology questions. What would you like to learn about?",
   "Hi there! I can help you with technical questions about frameworks, programming languages, tools, and more. What can I explain for you?",
   "Hey! I'm working great and ready to assist. Ask me about any technology - React, Next.js, Python, databases, deployment, or anything else you're curious about!"]

/-- `generateConversationalResponse`: first substring match against the
reply table, else a pseudo-random generic greeting.
`Math.floor(Math.random() * defaultResponses.length)` is modelled by the
parameter `rand : Fin 3`.  Pure: no I/O. -/
def generateConversationalResponse (rand : Fin 3) (query : String) : String :=
  let lowerQuery := lowerL query.toList
  match conversationalReplies.find? (fun kv => containsL lowerQuery kv.1.toList) with
  | some kv => kv.2
  | none => (defaultResponses.getD rand.val "")

/-- The prompt built by `generateTechnicalResponse` (fed to the LLM
completion oracle; `documentation.slice(0, MAX_CONTEXT_CHARS)` and
`libraries.join(', ') || 'None'`). -/
def technicalPrompt (query documentation : String) (libraries : List String) :
    String :=
  "You are a helpful and knowledgeable technical mentor. Answer the user's question with specific, accurate information.\n\nUser Question: \"" ++ query ++ "\"\n\n"
  ++ (if documentation = "" then "No specific documentation found."
      else "\nDOCUMENTATION CONTEXT (USE THIS TO ANSWER):\n=====================================\n"
        ++ String.mk (documentation.toList.take MAX_CONTEXT_CHARS)
        ++ "\n=====================================\n")
  ++ "\n\nLibraries Referenced: "
  ++ (let joined := joinWith ", " libraries
      if joined = "" then "None" else joined)
  ++ "\n\nInstructions:\n1. If documentation is provided above, USE IT to give specific, accurate answers with code examples\n2. Be conversational but technical - provide real implementation details\n3. Keep the response focused and practical (2-3 paragraphs)\n4. If no documentation is available, provide general guidance and suggest official resources\n5. Always be encouraging and helpful\n\nProvide your response:"

/-- `generateFallbackResponse`: the deterministic string returned when
response generation throws. -/
def generateFallbackResponse (query : String) : String :=
  let lowerQuery := lowerL query.toList
  if containsL lowerQuery "hello".toList || containsL lowerQuery "hi".toList
      || containsL lowerQuery "hear me".toList then
    "Hello! I'm your TechMentor assistant and I'm working perfectly. What technology topic would you like to explore today?"
  else
    "I understand you're asking about \"" ++ query
      ++ "\". I'm having a small technical hiccup, but I'm still here to help! Could you try rephrasing your question, or ask about a specific technology like React, Next.js, or Python?"

/-- `ResponseGenerator.generate`: conversational contexts are answered
purely; technical contexts call the LLM completion oracle `llm` once
(`.ok` a completion text, `.error` a thrown failure) and trim the result;
any thrown error is caught and answered by `generateFallbackResponse`. -/
def generate (llm : String → Except Unit String) (rand : Fin 3)
    (ctx : ProcessingContext) : String :=
  if ctx.isConversational then generateConversationalResponse rand ctx.query
  else
    match llm (technicalPrompt ctx.query ctx.documentation ctx.libraries) with
    | .ok text => String.mk (trimL text.toList)
    | .error _ => generateFallbackResponse ctx.query

end ResponseGenerator

/-! ## Voice-query route (`src/app/api/voice-query/route.ts`) -/

namespace VoiceQueryRoute

/-- Outcome of `await request.json()`: a parsed body with a `query` field,
or a thrown parse error.  (The unused `timestamp` field and the derived
timing fields of the response are omitted from the model.) -/
inductive BodyOutcome where
  | ok (query : String)
  | exn

/-- Parsed body of a 2xx response of the internal `mcp-context` endpoint
(missing fields default to `''`/`[]` via `||`). -/
structure McpData where
  context : String
  documentation : String
  libraries : List String

/-- Outcome of the `mcp-context` fetch: 2xx with data, non-2xx, or thrown
(network error / 15s timeout). -/
inductive McpOutcome where
  | ok (d : McpData)
  | notOk
  | exn

/-- Parsed body of a 2xx response of the internal `gemini-analyze`
endpoint. -/
structure GeminiData where
  success : Bool
  response : String

/-- Outcome of the `gemini-analyze` fetch: 2xx with parsed data, non-2xx
(with error text), or thrown (network error / 10s timeout). -/
inductive GemOutcome where
  | ok (g : GeminiData)
  | notOk (errorText : String)
  | exn

/-- The response envelope fields the claims are about (the JSON bodies
also carry `libraries`, timing and optional `error`/`reasoning` fields,
omitted here). -/
structure VQResponse where
  status : Nat
  success : Bool
  response : String
  context : String
  documentation : String
  fallback : Bool

/-- `generateIntelligentFallback`: the canned per-technology guidance used
when the `gemini-analyze` fetch throws. -/
def generateIntelligentFallback (query : String) : String :=
  let lowerQuery := lowerL query.toList
  if containsL lowerQuery "next.js".toList || containsL lowerQuery "nextjs".toList then
    "For Next.js questions like \"" ++ query ++ "\", I recommend checking the official Next.js documentation at nextjs.org. They have excellent guides on routing, API routes, server components, and deployment. You can also find great examples in their GitHub repository."
  else if containsL lowerQuery "react".toList then
    "For React questions about \"" ++ query ++ "\", the official React documentation at react.dev is your best resource. They have comprehensive guides on hooks, components, state management, and best practices. The React team keeps it very up-to-date."
  else if containsL lowerQuery "typescript".toList then
    "For TypeScript questions like \"" ++ query ++ "\", I recommend the TypeScript handbook at typescriptlang.org. It covers types, interfaces, generics, and advanced patterns. The playground tool there is great for testing TypeScript concepts."
  else if containsL lowerQuery "python".toList then
    "For Python questions about \"" ++ query ++ "\", check the official Python documentation at python.org. They have excellent tutorials, library references, and community guides. Python's documentation is known for being very beginner-friendly."
  else if containsL lowerQuery "javascript".toList || containsL lowerQuery "js".toList then
    "For JavaScript questions like \"" ++ query ++ "\", MDN Web Docs (developer.mozilla.org) is the gold standard. They have comprehensive guides on ES6+, async/await, DOM manipulation, and modern JavaScript features."
  else if containsL lowerQuery "cloudflare".toList then
    "For Cloudflare questions about \"" ++ query ++ "\", check out the Cloudflare Developers documentation at developers.cloudflare.com. They have great guides for Workers, Pages, R2, and other services with practical examples."
  else
    "I understand you're asking about \"" ++ query ++ "\". While I'm having some technical difficulties accessing my full knowledge base right now, I can still help! Try asking more specific questions about programming topics, or check the official documentation for the technology you're working with. I'm particularly good at helping with web development, APIs, and modern JavaScript frameworks."

/-- The topic word interpolated into the `success:false` fallback template
(`query.toLowerCase().includes('next') ? 'Next.js' : ...`). -/
def topicWord (query : String) : String :=
  let lowerQuery := lowerL query.toList
  if containsL lowerQuery "next".toList then "Next.js"
  else if containsL lowerQuery "react".toList then "React"
  else if containsL lowerQuery "typescript".toList then "TypeScript"
  else "this topic"

/-- The `POST` handler of the voice-query route: validate the query, fetch
context (failure tolerated), fetch the LLM analysis, and wrap every
failure path in a 200 `success:true` envelope; the outer `catch` also
returns 200 `success:true`. -/
def voiceQueryPOST (body : BodyOutcome) (mcp : McpOutcome) (gem : GemOutcome) :
    VQResponse :=
  match body with
  | .exn =>
    -- outer catch: "Return 200 to avoid error loops"
    ⟨200, true,
     "I'm experiencing some technical difficulties, but I'm still here to help! Could you please try rephrasing your question? I'm great at helping with programming topics like Next.js, React, TypeScript, and Python.",
     "", "", true⟩
  | .ok query =>
    if (trimL query.toList).isEmpty then
      ⟨400, false, "Please provide a valid question.", "", "", false⟩
    else
      -- Step 1: context from the mcp-context endpoint (not critical)
      let mcpContext := match mcp with | .ok d => d.context | _ => ""
      let mcpDocumentation := match mcp with | .ok d => d.documentation | _ => ""
      -- Step 2: gemini-analyze
      match gem with
      | .notOk _ =>
        ⟨200, true,
         "I understand you're asking about: \"" ++ query ++ "\". However, I'm currently having trouble accessing my knowledge base. Could you please rephrase your question or try asking about a specific technology like Next.js, React, or Python?",
         mcpContext, mcpDocumentation, true⟩
      | .ok g =>
        if !g.success then
          ⟨200, true,
           (if g.response = "" then
              "I understand you're asking about: \"" ++ query ++ "\". I'm having some technical difficulties right now, but I can still help! For "
                ++ topicWord query
                ++ ", I recommend checking the official documentation for the most up-to-date information."
            else g.response),
           mcpContext, mcpDocumentation, true⟩
        else
          ⟨200, true,
           (if g.response = "" then
              "I received your question but got an empty response. Could you please rephrase your question?"
            else g.response),
           mcpContext, mcpDocumentation, false⟩
      | .exn =>
        ⟨200, true, generateIntelligentFallback query,
         mcpContext, mcpDocumentation, true⟩

end VoiceQueryRoute

/-! ## TTS route (`src/app/api/tts/route.ts`) -/

namespace TtsRoute

def DEFAULT_VOICE_ID : String := "EXAVITQu4vr4xnSDxMaL"

def MAX_TTS_LENGTH : Nat := 500

/-- Fuel-indexed pass behind `collapseWs` (see `extractIdsF` on fuel). -/
def collapseWsF : Nat → List Char → List Char
  | 0, _ => []
  | _ + 1, [] => []
  | fuel + 1, c :: cs =>
    if c.isWhitespace then ' ' :: collapseWsF fuel (cs.dropWhile Char.isWhitespace)
    else c :: collapseWsF fuel cs

/-- `.replace(/\s+/g, ' ')`: collapse every whitespace run to one space. -/
def collapseWs (l : List Char) : List Char :=
  collapseWsF (l.length + 1) l

/-- Fuel-indexed pass behind `newlinesToDots`. -/
def newlinesToDotsF : Nat → List Char → List Char
  | 0, _ => []
  | _ + 1, [] => []
  | fuel + 1, c :: cs =>
    if c = '\n' then '.' :: ' ' :: newlinesToDotsF fuel (cs.dropWhile (· == '\n'))
    else c :: newlinesToDotsF fuel cs

/-- `.replace(/\n+/g, '. ')`: collapse every newline run to `". "`. -/
def newlinesToDots (l : List Char) : List Char :=
  newlinesToDotsF (l.length + 1) l

/-- `.replace(/<c>/g, rep)` for a single-character pattern. -/
def replaceChar (target : Char) (rep : List Char) (l : List Char) : List Char :=
  l.flatMap (fun c => if c = target then rep else [c])

/-- Fuel-indexed pass behind `replaceSub`. -/
def replaceSubF (pat rep : List Char) : Nat → List Char → List Char
  | 0, _ => []
  | _ + 1, [] => []
  | fuel + 1, c :: cs =>
    if pat.isPrefixOf (c :: cs) && !pat.isEmpty then
      rep ++ replaceSubF pat rep fuel ((c :: cs).drop pat.length)
    else c :: replaceSubF pat rep fuel cs

/-- `.replace(/pat/g, rep)` for a literal multi-character pattern
(non-overlapping left-to-right occurrences). -/
def replaceSub (pat rep : List Char) (l : List Char) : List Char :=
  replaceSubF pat rep (l.length + 1) l

/-- Lazy search for the earliest occurrence of `delim`: returns the text
before it and the text after it.  With `noNl` the search fails at a
newline, modelling a lazy group `(.*?)` whose `.` does not match `\n`. -/
def splitAtClose (delim : List Char) (noNl : Bool) : List Char → Option (List Char × List Char)
  | [] => none
  | c :: cs =>
    if delim.isPrefixOf (c :: cs) then some ([], (c :: cs).drop delim.length)
    else if noNl && c = '\n' then none
    else
      match splitAtClose delim noNl cs with
      | some (inner, rest) => some (c :: inner, rest)
      | none => none

/-- Fuel-indexed pass behind `replaceLazyDelim`. -/
def replaceLazyDelimF (opened closed : List Char) (emit : List Char → List Char)
    (noNl : Bool) : Nat → List Char → List Char
  | 0, _ => []
  | _ + 1, [] => []
  | fuel + 1, c :: cs =>
    if opened.isPrefixOf (c :: cs) && !opened.isEmpty then
      match splitAtClose closed noNl ((c :: cs).drop opened.length) with
      | some (inner, rest) =>
        emit inner ++ replaceLazyDelimF opened closed emit noNl fuel rest
      | none => c :: replaceLazyDelimF opened closed emit noNl fuel cs
    else c :: replaceLazyDelimF opened closed emit noNl fuel cs

/-- One global lazy-delimited replacement pass, e.g.
`.replace(/\*\*(.*?)\*\*/g, '$1')` (`emit := id`) or
`.replace(/```[\s\S]*?```/g, 'code example')` (`emit := constant`).
On a position where the opening delimiter matches but no closing one
follows, the regex match fails and the scan restarts one character on. -/
def replaceLazyDelim (opened closed : List Char) (emit : List Char → List Char)
    (noNl : Bool) (l : List Char) : List Char :=
  replaceLazyDelimF opened closed emit noNl (l.length + 1) l

/-- Drop up to `n` further leading copies of `t`. -/
def dropUpTo : Nat → Char → List Char → List Char
  | 0, _, l => l
  | _ + 1, _, [] => []
  | n + 1, t, c :: cs => if c = t then dropUpTo n t cs else c :: cs

/-- Fuel-indexed pass behind `stripHeaders`. -/
def stripHeadersF : Nat → List Char → List Char
  | 0, _ => []
  | _ + 1, [] => []
  | fuel + 1, c :: cs =>
    if c = '#' then
      stripHeadersF fuel ((dropUpTo 5 '#' cs).dropWhile Char.isWhitespace)
    else c :: stripHeadersF fuel cs

/-- `.replace(/#{1,6}\s*/g, '')`: at a `#`, greedily consume up to six
hashes and the following whitespace, emitting nothing. -/
def stripHeaders (l : List Char) : List Char :=
  stripHeadersF (l.length + 1) l

/-- Fuel-indexed pass behind `stripUrls`. -/
def stripUrlsF : Nat → List Char → List Char
  | 0, _ => []
  | _ + 1, [] => []
  | fuel + 1, c :: cs =>
    if "https://".toList.isPrefixOf (c :: cs)
        && !(((c :: cs).drop 8).takeWhile (fun x => !x.isWhitespace)).isEmpty then
      "website link".toList
        ++ stripUrlsF fuel (((c :: cs).drop 8).dropWhile (fun x => !x.isWhitespace))
    else if "http://".toList.isPrefixOf (c :: cs)
        && !(((c :: cs).drop 7).takeWhile (fun x => !x.isWhitespace)).isEmpty then
      "website link".toList
        ++ stripUrlsF fuel (((c :: cs).drop 7).dropWhile (fun x => !x.isWhitespace))
    else c :: stripUrlsF fuel cs

/-- `.replace(/https?:\/\/[^\s]+/g, 'website link')`: `https?` prefers the
longer scheme, and at least one non-whitespace character must follow
`//`. -/
def stripUrls (l : List Char) : List Char :=
  stripUrlsF (l.length + 1) l

/-- The alternatives of `\.(js|ts|tsx|jsx|py|css|html|json|md)($|\s)`, in
the regex's order. -/
def extAlternatives : List (List Char) :=
  ["js", "ts", "tsx", "jsx", "py", "css", "html", "json", "md"].map String.toList

/-- Try the extension alternatives in order on the text after a `'.'`:
each must be followed by end-of-input or a whitespace character (captured
as `$2` and consumed).  Returns `(extension, sep, rest)`. -/
def extFindAlt : List (List Char) → List Char → Option (List Char × List Char × List Char)
  | [], _ => none
  | e :: es, cs =>
    if e.isPrefixOf cs then
      match cs.drop e.length with
      | [] => some (e, [], [])
      | d :: ds => if d.isWhitespace then some (e, [d], ds) else extFindAlt es cs
    else extFindAlt es cs

/-- Fuel-indexed pass behind `expandFileExts`. -/
def expandFileExtsF : Nat → List Char → List Char
  | 0, _ => []
  | _ + 1, [] => []
  | fuel + 1, c :: cs =>
    if c = '.' then
      match extFindAlt extAlternatives cs with
      | some (e, sep, rest) =>
        (' ' :: e ++ " file".toList ++ sep) ++ expandFileExtsF fuel rest
      | none => c :: expandFileExtsF fuel cs
    else c :: expandFileExtsF fuel cs

/-- `.replace(/\.(js|ts|tsx|jsx|py|css|html|json|md)($|\s)/g, ' $1 file$2')`. -/
def expandFileExts (l : List Char) : List Char :=
  expandFileExtsF (l.length + 1) l

/-- `fallbackCleanText`: the pure-regex cleaner used when the LLM-assisted
cleaner throws, with the source's replacement passes in order. -/
def fallbackCleanText (text : String) : String :=
  let l := text.toList
  let l := collapseWs l
  let l := replaceLazyDelim "**".toList "**".toList id true l
  let l := replaceLazyDelim "*".toList "*".toList id true l
  let l := replaceLazyDelim "`".toList "`".toList id true l
  let l := stripHeaders l
  let l := replaceLazyDelim "```".toList "```".toList (fun _ => "code example".toList) false l
  let l := replaceSub "```".toList [] l
  let l := replaceChar '&' " and ".toList l
  let l := replaceChar '@' " at ".toList l
  let l := replaceChar '#' " hash ".toList l
  let l := replaceChar '$' " dollar ".toList l
  let l := replaceChar '%' " percent ".toList l
  let l := stripUrls l
  let l := expandFileExts l
  let l := newlinesToDots l
  let l := collapseWs l
  String.mk (trimL l)

/-- The fixed prompt of the LLM-assisted cleaner, with the basic-cleanup
text interpolated. -/
def ttsCleanPrompt (basicCleanup : String) : String :=
  "Clean and optimize this text for text-to-speech (TTS) output. Make it natural for voice reading.\n\nOriginal text:\n"
  ++ basicCleanup
  ++ "\n\nRules:\n1. Remove ALL markdown formatting (**, *, `, #, etc.)\n2. Replace code blocks with brief descriptions like \"code example for X\"\n3. Convert technical symbols to spoken words (& → and, @ → at, # → hash)\n4. Replace URLs with \"link\" or \"website\"\n5. Convert file extensions to spoken form (.js → JavaScript file)\n6. Remove or rephrase anything that doesn't make sense when spoken\n7. Keep technical terms but make them pronounceable\n8. Ensure natural sentence flow for voice\n9. NO asterisks, NO backticks, NO formatting symbols\n10. If there are installation commands or code, summarize what they do instead\n\nExamples:\n- \"Install with `npm install @100mslive/sdk`\" → \"Install using npm install one hundred ms live SDK\"\n- \"Check the **documentation** at https://...\" → \"Check the documentation at their website\"\n- \"config.js file\" → \"config JavaScript file\"\n\nCleaned text for TTS:"

/-- `cleanTextForTTS`: basic whitespace cleanup, one LLM rewriting call
(`llm`), a final symbol-stripping pass on success, `fallbackCleanText` on
a thrown LLM error. -/
def cleanTextForTTS (llm : String → Except Unit String) (text : String) : String :=
  let basicCleanup := String.mk (trimL (newlinesToDots (collapseWs text.toList)))
  match llm (ttsCleanPrompt basicCleanup) with
  | .ok out =>
    let cleanedText := trimL out.toList
    let l := replaceChar '*' [] cleanedText
    let l := replaceChar '`' [] l
    let l := replaceChar '#' [] l
    let l := replaceSub "```math".toList [] l
    let l := replaceSub "```".toList [] l
    let l := collapseWs l
    String.mk (trimL l)
  | .error _ => fallbackCleanText text

/-- The truncated-with-ellipsis variant computed (but never used) by the
post-cleaning length double-check:
`cleanedText.substring(0, MAX_TTS_LENGTH - 3) + '...'`. -/
def truncateForTts (s : String) : String :=
  String.mk (s.toList.take (MAX_TTS_LENGTH - 3)) ++ "..."

/-- Outcome of the ElevenLabs `fetch`: a response with a status and an
audio payload size, or a thrown error. -/
inductive VendorOutcome where
  | resp (status : Nat) (bytes : Nat)
  | exn

/-- The distinct responses of the TTS `POST` handler. -/
inductive TtsResult where
  | emptyText
  | tooLong (textLength maxLength : Nat)
  | noKey
  | audio (bytes : Nat)
  | vendorFail
deriving DecidableEq

/-- HTTP status of each handler response. -/
def TtsResult.statusCode : TtsResult → Nat
  | .emptyText => 400
  | .tooLong _ _ => 400
  | .noKey => 422
  | .audio _ => 200
  | .vendorFail => 500

/-- The `message` field of each JSON error body (empty where the source
body has none). -/
def TtsResult.bodyMessage : TtsResult → String
  | .tooLong len maxLen =>
    "Text must be under " ++ toString maxLen ++ " characters. Received: " ++ toString len
  | .noKey => "Using Web Speech API fallback"
  | .vendorFail => "Falling back to Web Speech API"
  | _ => ""

/-- The `useWebSpeech` flag of each JSON error body. -/
def TtsResult.useWebSpeech : TtsResult → Bool
  | .noKey => true
  | .vendorFail => true
  | _ => false

/-- External state of one TTS request: the API-key configuration, the
Gemini cleaning oracle and the ElevenLabs vendor oracle (the vendor is a
function of the voice identifier and the text sent). -/
structure TtsEnv where
  hasKey : Bool
  cleanLlm : String → Except Unit String
  vendor : String → String → VendorOutcome

/-- JavaScript `voice || DEFAULT_VOICE_ID` on the optional request field. -/
def jsOrDefault (v : Option String) (d : String) : String :=
  match v with
  | some s => if s = "" then d else s
  | none => d

/-- The TTS `POST` handler.  Returns the response together with the list
of vendor calls made, each recorded as (voice identifier, text sent); the
vendor's speech parameters (`model_id`, `voice_settings` with the
`speaking_rate` from the request's `speed`, `output_format`) are fixed
per call and not part of the log.  A non-2xx vendor response throws
(`ElevenLabs API failed`) into the outer catch, which returns the
`useWebSpeech` fallback; the truncated variant `_truncated` is computed
by the double-check but never used, exactly as in the source. -/
def ttsPOST (env : TtsEnv) (text : String) (voice : Option String) :
    TtsResult × List (String × String) :=
  if (trimL text.toList).isEmpty then (.emptyText, [])
  else if text.length > MAX_TTS_LENGTH then (.tooLong text.length MAX_TTS_LENGTH, [])
  else if !env.hasKey then (.noKey, [])
  else
    let cleanedText := cleanTextForTTS env.cleanLlm text
    let _truncated :=
      if cleanedText.length > MAX_TTS_LENGTH then some (truncateForTts cleanedText)
      else none
    let voiceId := jsOrDefault voice DEFAULT_VOICE_ID
    match env.vendor voiceId cleanedText with
    | .resp status bytes =>
      if statusOk status then (.audio bytes, [(voiceId, cleanedText)])
      else (.vendorFail, [(voiceId, cleanedText)])
    | .exn => (.vendorFail, [(voiceId, cleanedText)])

end TtsRoute

/-! ## Helper lemmas -/

theorem containsL_iff (hay pat : List Char) :
    containsL hay pat = true ↔ pat <:+: hay := by
  induction hay with
  | nil =>
    simp [containsL, List.isEmpty_iff, List.infix_nil]
  | cons c cs ih =>
    simp [containsL, List.infix_cons_iff, List.isPrefixOf_iff_prefix, ih]

theorem strAppend_ne_empty (s t : String) (h : s.data ≠ []) : s ++ t ≠ "" := by
  intro he
  apply h
  have hd : (s ++ t).data = [] := by rw [he]
  rw [String.data_append] at hd
  exact (List.append_eq_nil.mp hd).1

theorem containsL_append_mid (a q b : String) :
    containsL (a ++ q ++ b).toList q.toList = true := by
  rw [containsL_iff]
  refine ⟨a.toList, b.toList, ?_⟩
  show a.data ++ q.data ++ b.data = (a ++ q ++ b).data
  simp [String.data_append]

theorem strConcat3_ne_empty (a q b : String) (ha : a.data ≠ []) :
    a ++ q ++ b ≠ "" := by
  apply strAppend_ne_empty
  rw [String.data_append]
  intro hx
  exact ha (List.append_eq_nil.mp hx).1

theorem strAppend_data_ne_left (s t : String) (hs : s.data ≠ []) :
    (s ++ t).data ≠ [] := by
  rw [String.data_append]
  intro hx
  exact hs (List.append_eq_nil.mp hx).1

theorem containsL_append_left (a b pat : String)
    (h : containsL a.toList pat.toList = true) :
    containsL (a ++ b).toList pat.toList = true := by
  rw [containsL_iff] at h ⊢
  exact h.trans ⟨[], b.toList, by simp [String.data_append]⟩

theorem containsL_append_right (a b pat : String)
    (h : containsL b.toList pat.toList = true) :
    containsL (a ++ b).toList pat.toList = true := by
  rw [containsL_iff] at h ⊢
  refine h.trans ⟨a.toList, [], ?_⟩
  simp [String.data_append]

theorem addIteShift (c : Prop) [Decidable c] (s b : Int) :
    (if c then s + b else s) = s + (if c then b else 0) := by
  split <;> simp

theorem subIteShift (c : Prop) [Decidable c] (s b : Int) :
    (if c then s - b else s) = s + (if c then -b else 0) := by
  split <;> simp [sub_eq_add_neg]

/-! ## C1: `MCPClient.search` degrades to the empty result -/

/-- C1: for every query, whenever the resolve stage yields a non-2xx
response, a body without a parseable SSE data chunk, or zero extracted
library identifiers, `MCPClient.search` returns exactly
`{ documentation: "", libraries: [] }` (and, being a total function of
the modelled outcomes, never throws). -/
theorem C1_search_degrades_to_empty
    (extract : String → Option String) (docEnv : String → FetchOutcome)
    (query : String) (status : Nat) (body : String)
    (h : statusOk status = false
      ∨ MCPClient.sseDataLines body.toList = []
      ∨ MCPClient.findLibraries extract (.resp status body) = []) :
    MCPClient.search extract (.resp status body) docEnv query =
      ⟨"", []⟩ := by
  have hlib : MCPClient.findLibraries extract (.resp status body) = [] := by
    rcases h with h | h | h
    · simp [MCPClient.findLibraries, h]
    · unfold MCPClient.findLibraries
      have h2 : MCPClient.sseDataLines body.data = [] := h
      by_cases hs : statusOk status
      · simp [hs, h2]
      · simp [hs]
    · exact h
  simp [MCPClient.search, hlib]

/-- Witness for C1 at a concrete non-2xx resolve outcome. -/
theorem C1_search_degrades_to_empty_witness :
    statusOk 500 = false
    ∧ MCPClient.search (fun _ => some "") (.resp 500 "x") (fun _ => .exn) "react"
        = ⟨"", []⟩ :=
  ⟨by decide,
   C1_search_degrades_to_empty (fun _ => some "") (fun _ => .exn) "react" 500 "x"
     (Or.inl (by decide))⟩

/-! ## C2: the library-ranking heuristic -/

/-- C2 counterexample: the scoring rule the claim states disagrees with
the implemented one.  For the candidate `/aaa/template` and query `zzz`
the claim's rule assigns −40 (template penalty) while the code assigns 0
(it penalises only example/demo/starter), so with a second neutral
candidate the claim's predicted top-2 ordering differs from the code's. -/
theorem C2_ranking_counterexample :
    MCPClient.selectTopLibraries ["/aaa/template", "/bbb/other"] "zzz"
        = ["/aaa/template", "/bbb/other"]
    ∧ MCPClient.claimSelectTopLibraries ["/aaa/template", "/bbb/other"] "zzz"
        = ["/bbb/other", "/aaa/template"]
    ∧ MCPClient.libraryScore "zzz" "/aaa/template" = 0
    ∧ MCPClient.claimRankScore "zzz" "/aaa/template" = -40 := by
  refine ⟨by decide, by decide, by decide, by decide⟩

/-- C2 (amended): `selectTopLibraries` ranks each candidate with the
implemented bonus table (`amendedRankScore`: +100 better-auth special
case, +80 next.js special case, +100 drizzle special case, +50 official
organisation, +30 docs/documentation repository, −50 auth0/nextauth
penalties under a better-auth query, −40 example/demo/starter, +10 per
shared query keyword longer than 2 characters), sorts descending by
score with a stable sort, and returns at most the top 2 candidates. -/
theorem C2_selectTopLibraries_amended (libraryIds : List String)
    (query ident : String) :
    MCPClient.selectTopLibraries libraryIds query
      = ((MCPClient.sortScoredDesc
            (libraryIds.map (fun i => (i, MCPClient.libraryScore query i)))).take 2).map
          Prod.fst
    ∧ (MCPClient.sortScoredDesc
        (libraryIds.map (fun i => (i, MCPClient.libraryScore query i)))).Perm
        (libraryIds.map (fun i => (i, MCPClient.libraryScore query i)))
    ∧ List.Sorted (fun a b : String × Int => b.2 ≤ a.2)
        (MCPClient.sortScoredDesc
          (libraryIds.map (fun i => (i, MCPClient.libraryScore query i))))
    ∧ (MCPClient.selectTopLibraries libraryIds query).length ≤ 2
    ∧ MCPClient.libraryScore query ident = MCPClient.amendedRankScore query ident := by
  refine ⟨rfl, List.perm_insertionSort _ _, ?_, ?_, ?_⟩
  · haveI : IsTotal (String × Int) (fun a b => b.2 ≤ a.2) :=
      ⟨fun a b => le_total b.2 a.2⟩
    haveI : IsTrans (String × Int) (fun a b => b.2 ≤ a.2) :=
      ⟨fun _ _ _ h1 h2 => le_trans h2 h1⟩
    exact List.sorted_insertionSort _ _
  · simp only [MCPClient.selectTopLibraries, List.length_map, List.length_take]
    omega
  · simp only [MCPClient.libraryScore, MCPClient.amendedRankScore, addIteShift,
      subIteShift]
    ring

/-! ## C4: per-library documentation fetches are isolated -/

/-- C4: with two selected identifiers, if one per-library fetch fails
(`docEntry _ = none`: thrown error, non-2xx, missing chunk, parse failure
or empty content) and the other succeeds with content `c`, then — in
either order — `getDocumentation` waits for both settled outcomes and
returns exactly the successful library's content prefixed with its
`=== Documentation from <id> ===` marker; the failure aborts nothing and
nothing is thrown. -/
theorem C4_getDocumentation_isolated
    (extract : String → Option String) (env : String → FetchOutcome)
    (a b : String) (status : Nat) (body c : String)
    (ha : MCPClient.docEntry extract env a = none)
    (hb : env b = .resp status body)
    (hok : statusOk status = true)
    (hne : MCPClient.sseDataLines body.toList ≠ [])
    (hex : extract (String.mk ((MCPClient.sseDataLines body.toList).getLastD []))
      = some c)
    (hc : c ≠ "") :
    MCPClient.getDocumentation extract env [a, b] = MCPClient.docMarker b c
    ∧ MCPClient.getDocumentation extract env [b, a] = MCPClient.docMarker b c := by
  have hbEntry : MCPClient.docEntry extract env b
      = some (MCPClient.docMarker b c) := by
    have hex2 : extract
        (String.mk ((MCPClient.sseDataLines body.data).getLast?.getD [])) = some c := by
      have hg : (MCPClient.sseDataLines body.data).getLast?.getD []
          = (MCPClient.sseDataLines body.data).getLastD [] :=
        (List.getLastD_eq_getLast? _ _).symm
      rw [hg]
      exact hex
    unfold MCPClient.docEntry
    rw [hb]
    simp [hok, hex2, hc]
    exact hne
  constructor <;>
    simp [MCPClient.getDocumentation, ha, hbEntry, joinWith]

/-- Witness for C4: a concrete environment where the first fetch returns
a 500 and the second succeeds. -/
theorem C4_getDocumentation_isolated_witness :
    MCPClient.getDocumentation (fun s => some s)
        (fun i => if i = "/b/y" then .resp 200 "data: DOC\n" else .resp 500 "")
        ["/a/x", "/b/y"]
      = MCPClient.docMarker "/b/y" "DOC" :=
  (C4_getDocumentation_isolated (fun s => some s)
    (fun i => if i = "/b/y" then .resp 200 "data: DOC\n" else .resp 500 "")
    "/a/x" "/b/y" 200 "data: DOC\n" "DOC"
    (by decide) (by decide) (by decide) (by decide) (by decide) (by decide)).1

/-! ## C5: the conversational classifier -/

/-- C5: `isConversational` lower-cases and trims the query and returns
`true` exactly when one of the ten fixed phrases occurs as a substring;
in particular it is `true` for `"hey, how do hooks work"` and `false` for
`"how do I set up authentication in Next.js 14"`. -/
theorem C5_isConversational_spec (query : String) :
    (QueryCorrector.isConversational query = true
      ↔ ∃ phrase ∈ CONVERSATIONAL_PHRASES,
          phrase.toList <:+: trimL (lowerL query.toList))
    ∧ QueryCorrector.isConversational "hey, how do hooks work" = true
    ∧ QueryCorrector.isConversational "how do I set up authentication in Next.js 14"
        = false := by
  refine ⟨?_, by decide, by decide⟩
  simp [QueryCorrector.isConversational, List.any_eq_true, containsL_iff]

/-! ## C3: the voice-query handler never fails outward -/

theorem generateIntelligentFallback_ne_empty (q : String) :
    VoiceQueryRoute.generateIntelligentFallback q ≠ "" := by
  simp only [VoiceQueryRoute.generateIntelligentFallback]
  split_ifs <;> exact strConcat3_ne_empty _ _ _ (by decide)

/-- C3: for every request body whose query is non-empty after trimming,
the voice-query `POST` handler returns HTTP 200 with `success: true` and a
non-empty `response` string under every combination of internal-stage
outcomes — documentation retrieval failing (non-2xx or thrown) and LLM
completion failing (non-2xx, unsuccessful result, empty result or thrown)
included; no exception reaches the HTTP boundary (the handler is a total
function of the modelled outcomes, and its outer catch also yields a 200
`success: true` envelope). -/
theorem C3_voiceQuery_always_succeeds (query : String)
    (mcp : VoiceQueryRoute.McpOutcome) (gem : VoiceQueryRoute.GemOutcome)
    (h : (trimL query.toList).isEmpty = false) :
    (VoiceQueryRoute.voiceQueryPOST (.ok query) mcp gem).status = 200
    ∧ (VoiceQueryRoute.voiceQueryPOST (.ok query) mcp gem).success = true
    ∧ (VoiceQueryRoute.voiceQueryPOST (.ok query) mcp gem).response ≠ "" := by
  cases gem with
  | notOk e =>
    simp only [VoiceQueryRoute.voiceQueryPOST, h, Bool.false_eq_true, if_false]
    exact ⟨by trivial, by trivial, strConcat3_ne_empty _ _ _ (by decide)⟩
  | exn =>
    simp only [VoiceQueryRoute.voiceQueryPOST, h, Bool.false_eq_true, if_false]
    exact ⟨by trivial, by trivial, generateIntelligentFallback_ne_empty query⟩
  | ok g =>
    simp only [VoiceQueryRoute.voiceQueryPOST, h, Bool.false_eq_true, if_false]
    by_cases hs : g.success
    · simp only [hs, Bool.not_true, Bool.false_eq_true, if_false]
      by_cases hr : g.response = ""
      · simp only [hr, if_pos]
        exact ⟨by trivial, by trivial, by decide⟩
      · simp only [hr, if_neg]
        exact ⟨by trivial, by trivial, hr⟩
    · have hs2 : g.success = false := by
        cases hg : g.success
        · rfl
        · exact absurd hg hs
      simp only [hs2, Bool.not_false, if_true]
      by_cases hr : g.response = ""
      · simp only [hr, if_pos]
        refine ⟨by trivial, by trivial, ?_⟩
        apply strAppend_ne_empty
        apply strAppend_data_ne_left
        apply strAppend_data_ne_left
        apply strAppend_data_ne_left
        decide
      · simp only [hr, if_neg]
        exact ⟨by trivial, by trivial, hr⟩

/-- Witness for C3: a concrete request where both the documentation fetch
and the LLM fetch throw. -/
theorem C3_voiceQuery_always_succeeds_witness :
    (trimL "how do hooks work".toList).isEmpty = false
    ∧ (VoiceQueryRoute.voiceQueryPOST (.ok "how do hooks work") .exn .exn).status = 200
    ∧ (VoiceQueryRoute.voiceQueryPOST (.ok "how do hooks work") .exn .exn).success
        = true
    ∧ (VoiceQueryRoute.voiceQueryPOST (.ok "how do hooks work") .exn .exn).response
        ≠ "" :=
  ⟨by decide,
   (C3_voiceQuery_always_succeeds "how do hooks work" .exn .exn (by decide)).1,
   (C3_voiceQuery_always_succeeds "how do hooks work" .exn .exn (by decide)).2.1,
   (C3_voiceQuery_always_succeeds "how do hooks work" .exn .exn (by decide)).2.2⟩

/-! ## C6: conversational generation is pure and non-empty -/

/-- C6: for every context marked conversational, `generate` is
independent of the LLM completion oracle (no network call is made) and
returns non-empty text: the reply of the first phrase-table entry whose
phrase occurs in the lower-cased query, or one of the fixed generic
greetings when no phrase matches. -/
theorem C6_generate_conversational_pure
    (llm llm2 : String → Except Unit String) (rand : Fin 3)
    (ctx : ProcessingContext) (h : ctx.isConversational = true) :
    ResponseGenerator.generate llm rand ctx = ResponseGenerator.generate llm2 rand ctx
    ∧ ResponseGenerator.generate llm rand ctx ≠ ""
    ∧ (match ResponseGenerator.conversationalReplies.find?
          (fun kv => containsL (lowerL ctx.query.toList) kv.1.toList) with
       | some kv => ResponseGenerator.generate llm rand ctx = kv.2
       | none =>
         ResponseGenerator.generate llm rand ctx
           ∈ ResponseGenerator.defaultResponses) := by
  have hg : ∀ l : String → Except Unit String,
      ResponseGenerator.generate l rand ctx
        = ResponseGenerator.generateConversationalResponse rand ctx.query := by
    intro l
    unfold ResponseGenerator.generate
    simp [h]
  have htab : ∀ kv ∈ ResponseGenerator.conversationalReplies, kv.2 ≠ "" := by decide
  refine ⟨by rw [hg, hg], ?_, ?_⟩
  · rw [hg]
    unfold ResponseGenerator.generateConversationalResponse
    cases hf : ResponseGenerator.conversationalReplies.find?
        (fun kv => containsL (lowerL ctx.query.toList) kv.1.toList) with
    | some kv =>
      simp only [hf]
      exact htab kv (List.mem_of_find?_eq_some hf)
    | none =>
      simp only [hf]
      fin_cases rand <;> decide
  · rw [hg]
    unfold ResponseGenerator.generateConversationalResponse
    cases hf : ResponseGenerator.conversationalReplies.find?
        (fun kv => containsL (lowerL ctx.query.toList) kv.1.toList) with
    | some kv => simp only [hf]
    | none =>
      simp only [hf]
      fin_cases rand <;> decide

/-- Witness for C6 at the conversational query `"hello"`, with one LLM
oracle that throws and one that answers. -/
theorem C6_generate_conversational_pure_witness :
    (⟨"hello", "hello", "", [], true⟩ : ProcessingContext).isConversational = true
    ∧ ResponseGenerator.generate (fun _ => .error ()) 0
        ⟨"hello", "hello", "", [], true⟩
      = ResponseGenerator.generate (fun _ => .ok "llm text") 0
          ⟨"hello", "hello", "", [], true⟩
    ∧ ResponseGenerator.generate (fun _ => .error ()) 0
        ⟨"hello", "hello", "", [], true⟩ ≠ "" :=
  ⟨rfl,
   (C6_generate_conversational_pure (fun _ => .error ()) (fun _ => .ok "llm text") 0
     ⟨"hello", "hello", "", [], true⟩ rfl).1,
   (C6_generate_conversational_pure (fun _ => .error ()) (fun _ => .ok "llm text") 0
     ⟨"hello", "hello", "", [], true⟩ rfl).2.1⟩

/-! ## C7: the generation fallback -/

/-- C7 counterexample: the claim says the on-exception fallback "echoes
the query".  For the context with query `"hello world"`, not marked
conversational, and a throwing LLM oracle, the fallback is the fixed
greeting, which does not contain the query. -/
theorem C7_fallback_counterexample :
    ResponseGenerator.generate (fun _ => Except.error ()) 0
        ⟨"hello world", "hello world", "", [], false⟩
      = "Hello! I'm your TechMentor assistant and I'm working perfectly. What technology topic would you like to explore today?"
    ∧ containsL
        "Hello! I'm your TechMentor assistant and I'm working perfectly. What technology topic would you like to explore today?".toList
        "hello world".toList = false := by
  exact ⟨by decide, by decide⟩

/-- C7 (amended): `generate` never propagates a thrown error: when the
LLM oracle throws on every prompt and the context is not conversational,
it returns the deterministic `generateFallbackResponse` — a fixed
greeting when the lower-cased query contains "hello", "hi" or "hear me",
and otherwise a string that echoes the query and invites rephrasing. -/
theorem C7_generate_fallback_amended
    (llm : String → Except Unit String) (rand : Fin 3) (ctx : ProcessingContext)
    (hllm : ∀ p, llm p = Except.error ())
    (hconv : ctx.isConversational = false) :
    ResponseGenerator.generate llm rand ctx
      = ResponseGenerator.generateFallbackResponse ctx.query
    ∧ ResponseGenerator.generateFallbackResponse ctx.query ≠ ""
    ∧ ((containsL (lowerL ctx.query.toList) "hello".toList
        || containsL (lowerL ctx.query.toList) "hi".toList
        || containsL (lowerL ctx.query.toList) "hear me".toList) = false →
        containsL (ResponseGenerator.generateFallbackResponse ctx.query).toList
            ctx.query.toList = true
        ∧ containsL (ResponseGenerator.generateFallbackResponse ctx.query).toList
            "rephrasing".toList = true) := by
  refine ⟨?_, ?_, ?_⟩
  · unfold ResponseGenerator.generate
    simp [hconv, hllm]
  · simp only [ResponseGenerator.generateFallbackResponse]
    split_ifs with hcond
    · decide
    · exact strConcat3_ne_empty _ _ _ (by decide)
  · intro hcond
    simp only [ResponseGenerator.generateFallbackResponse, hcond, Bool.false_eq_true,
      if_false]
    constructor
    · exact containsL_append_mid _ _ _
    · apply containsL_append_right
      decide

/-- Witness for C7 (amended) at the query `"react hooks"` with a throwing
LLM oracle. -/
theorem C7_generate_fallback_amended_witness :
    ResponseGenerator.generate (fun _ => Except.error ()) 0
        ⟨"react hooks", "react hooks", "", [], false⟩
      = ResponseGenerator.generateFallbackResponse "react hooks"
    ∧ ResponseGenerator.generateFallbackResponse "react hooks" ≠ "" :=
  ⟨(C7_generate_fallback_amended (fun _ => Except.error ()) 0
      ⟨"react hooks", "react hooks", "", [], false⟩ (fun _ => rfl) rfl).1,
   (C7_generate_fallback_amended (fun _ => Except.error ()) 0
      ⟨"react hooks", "react hooks", "", [], false⟩ (fun _ => rfl) rfl).2.1⟩

/-! ## The TTS handler on accepted requests (shared helper) -/

theorem ttsPOST_accepted (env : TtsRoute.TtsEnv) (text : String)
    (voice : Option String)
    (hne : (trimL text.toList).isEmpty = false)
    (hlen : ¬ text.length > TtsRoute.MAX_TTS_LENGTH)
    (hkey : env.hasKey = true) :
    TtsRoute.ttsPOST env text voice
      = match env.vendor (TtsRoute.jsOrDefault voice TtsRoute.DEFAULT_VOICE_ID)
            (TtsRoute.cleanTextForTTS env.cleanLlm text) with
        | .resp status bytes =>
          if statusOk status then
            (.audio bytes,
             [(TtsRoute.jsOrDefault voice TtsRoute.DEFAULT_VOICE_ID,
               TtsRoute.cleanTextForTTS env.cleanLlm text)])
          else
            (.vendorFail,
             [(TtsRoute.jsOrDefault voice TtsRoute.DEFAULT_VOICE_ID,
               TtsRoute.cleanTextForTTS env.cleanLlm text)])
        | .exn =>
          (.vendorFail,
           [(TtsRoute.jsOrDefault voice TtsRoute.DEFAULT_VOICE_ID,
             TtsRoute.cleanTextForTTS env.cleanLlm text)]) := by
  unfold TtsRoute.ttsPOST
  simp only [hne, Bool.false_eq_true, if_false, hlen, hkey, Bool.not_true]

theorem ttsPOST_accepted_log (env : TtsRoute.TtsEnv) (text : String)
    (voice : Option String)
    (hne : (trimL text.toList).isEmpty = false)
    (hlen : ¬ text.length > TtsRoute.MAX_TTS_LENGTH)
    (hkey : env.hasKey = true) :
    (TtsRoute.ttsPOST env text voice).2
      = [(TtsRoute.jsOrDefault voice TtsRoute.DEFAULT_VOICE_ID,
          TtsRoute.cleanTextForTTS env.cleanLlm text)] := by
  rw [ttsPOST_accepted env text voice hne hlen hkey]
  split
  · split <;> rfl
  · rfl

/-! ## C8: the 500-character TTS input gate -/

/-- C8: the TTS `POST` handler rejects any non-blank text longer than the
fixed `MAX_TTS_LENGTH = 500` ceiling with an HTTP 400 response whose body
message references the 500-character limit, making no cleaning or vendor
call (empty call log, result independent of the whole environment); a
400-character input is never rejected for length, whatever the
environment. -/
theorem C8_tts_length_gate (env : TtsRoute.TtsEnv) (text : String)
    (voice : Option String)
    (hne : (trimL text.toList).isEmpty = false)
    (hlen : text.length > TtsRoute.MAX_TTS_LENGTH) :
    TtsRoute.ttsPOST env text voice
        = (.tooLong text.length TtsRoute.MAX_TTS_LENGTH, [])
    ∧ (TtsRoute.TtsResult.tooLong text.length TtsRoute.MAX_TTS_LENGTH).statusCode
        = 400
    ∧ containsL
        (TtsRoute.TtsResult.tooLong text.length
          TtsRoute.MAX_TTS_LENGTH).bodyMessage.toList
        "500".toList = true
    ∧ (∀ n m : Nat,
        (TtsRoute.ttsPOST env (String.mk (List.replicate 400 'a')) voice).1
          ≠ .tooLong n m) := by
  refine ⟨?_, rfl, ?_, ?_⟩
  · have hne2 : ¬ trimL text.data = [] := by
      intro hnil
      rw [show trimL text.toList = trimL text.data from rfl, hnil] at hne
      simp at hne
    unfold TtsRoute.ttsPOST
    simp [hne2, hlen]
  · show containsL
      (("Text must be under " ++ toString TtsRoute.MAX_TTS_LENGTH
          ++ " characters. Received: ") ++ toString text.length).toList
      "500".toList = true
    apply containsL_append_left
    decide
  · intro n m
    unfold TtsRoute.ttsPOST
    have h1 : (trimL (String.mk (List.replicate 400 'a')).toList).isEmpty = false := by
      decide
    have h2 : ¬ (String.mk (List.replicate 400 'a')).length
        > TtsRoute.MAX_TTS_LENGTH := by
      show ¬ (List.replicate 400 'a').length > 500
      simp
    simp only [h1, Bool.false_eq_true, if_false, h2]
    by_cases hk : env.hasKey
    · simp only [hk, Bool.not_true, Bool.false_eq_true, if_false]
      cases hv : env.vendor
          (TtsRoute.jsOrDefault voice TtsRoute.DEFAULT_VOICE_ID)
          (TtsRoute.cleanTextForTTS env.cleanLlm
            (String.mk (List.replicate 400 'a'))) with
      | resp status bytes => simp only [hv]; split <;> simp
      | exn => simp only [hv]; simp
    · have hk2 : env.hasKey = false := by
        cases hkk : env.hasKey
        · rfl
        · exact absurd hkk hk
      simp [hk2]

/-- Witness for C8: a concrete 501-character input is rejected with the
400 length response. -/
theorem C8_tts_length_gate_witness :
    (trimL (String.mk (List.replicate 501 'a')).toList).isEmpty = false
    ∧ TtsRoute.ttsPOST ⟨true, fun _ => .ok "ok", fun _ _ => .resp 200 1⟩
        (String.mk (List.replicate 501 'a')) none
      = (.tooLong 501 500, []) :=
  ⟨by decide,
   (C8_tts_length_gate ⟨true, fun _ => .ok "ok", fun _ _ => .resp 200 1⟩
     (String.mk (List.replicate 501 'a')) none (by decide)
     (by show (List.replicate 501 'a').length > 500; simp)).1⟩

/-! ## C9: no retry with an alternate voice -/

/-- C9 counterexample: with the vendor answering 500 on every call, the
handler makes exactly one vendor call, with the fixed default voice
identifier, and returns the `useWebSpeech` fallback — it never retries
with a second, alternate voice identifier as the claim states. -/
theorem C9_tts_no_retry_counterexample :
    TtsRoute.ttsPOST ⟨true, fun _ => .ok "short text", fun _ _ => .resp 500 0⟩
        "Hello world." none
      = (.vendorFail, [(TtsRoute.DEFAULT_VOICE_ID, "short text")])
    ∧ [(TtsRoute.DEFAULT_VOICE_ID, "short text")].length = 1 := by
  exact ⟨by decide, rfl⟩

/-- C9 (amended): for every accepted TTS request the handler calls the
vendor exactly once, with the requested voice or the fixed default voice
identifier (the speech-rate and voice settings are fixed per call); on a
non-2xx vendor response it makes no retry: the thrown error lands in the
catch, which returns the HTTP 500 `useWebSpeech` fallback. -/
theorem C9_tts_single_call_amended (env : TtsRoute.TtsEnv) (text : String)
    (voice : Option String)
    (hne : (trimL text.toList).isEmpty = false)
    (hlen : ¬ text.length > TtsRoute.MAX_TTS_LENGTH)
    (hkey : env.hasKey = true) :
    (TtsRoute.ttsPOST env text voice).2
      = [(TtsRoute.jsOrDefault voice TtsRoute.DEFAULT_VOICE_ID,
          TtsRoute.cleanTextForTTS env.cleanLlm text)]
    ∧ (∀ status bytes : Nat,
        env.vendor (TtsRoute.jsOrDefault voice TtsRoute.DEFAULT_VOICE_ID)
            (TtsRoute.cleanTextForTTS env.cleanLlm text) = .resp status bytes →
        statusOk status = false →
        (TtsRoute.ttsPOST env text voice).1 = .vendorFail
        ∧ TtsRoute.TtsResult.vendorFail.statusCode = 500
        ∧ TtsRoute.TtsResult.vendorFail.useWebSpeech = true) := by
  refine ⟨ttsPOST_accepted_log env text voice hne hlen hkey, ?_⟩
  intro status bytes hv hnok
  refine ⟨?_, rfl, rfl⟩
  rw [ttsPOST_accepted env text voice hne hlen hkey, hv]
  simp [hnok]

/-- Witness for C9 (amended): one vendor call with the requested voice. -/
theorem C9_tts_single_call_amended_witness :
    (TtsRoute.ttsPOST ⟨true, fun _ => .ok "ok", fun _ _ => .exn⟩ "Hi." (some "v")).2
      = [("v", TtsRoute.cleanTextForTTS (fun _ => .ok "ok") "Hi.")] :=
  (C9_tts_single_call_amended ⟨true, fun _ => .ok "ok", fun _ _ => .exn⟩ "Hi."
    (some "v") (by decide) (by decide) rfl).1

/-! ## C10: the over-length cleaned text is sent unchanged -/

/-- C10: when an accepted request's cleaning step returns a text longer
than the 500-character ceiling, the handler sends that over-length
cleaned text to the vendor unchanged — the truncated-with-ellipsis
variant computed by the double-check differs from what is sent (it is
assigned to a local value the source never uses). -/
theorem C10_tts_overlength_sent_unchanged (env : TtsRoute.TtsEnv) (text : String)
    (voice : Option String)
    (hne : (trimL text.toList).isEmpty = false)
    (hlen : ¬ text.length > TtsRoute.MAX_TTS_LENGTH)
    (hkey : env.hasKey = true)
    (hover : (TtsRoute.cleanTextForTTS env.cleanLlm text).length
      > TtsRoute.MAX_TTS_LENGTH) :
    (TtsRoute.ttsPOST env text voice).2
      = [(TtsRoute.jsOrDefault voice TtsRoute.DEFAULT_VOICE_ID,
          TtsRoute.cleanTextForTTS env.cleanLlm text)]
    ∧ TtsRoute.cleanTextForTTS env.cleanLlm text
        ≠ TtsRoute.truncateForTts (TtsRoute.cleanTextForTTS env.cleanLlm text) := by
  refine ⟨ttsPOST_accepted_log env text voice hne hlen hkey, ?_⟩
  have hdata : (TtsRoute.cleanTextForTTS env.cleanLlm text).data.length > 500 := hover
  have htr : (TtsRoute.truncateForTts
      (TtsRoute.cleanTextForTTS env.cleanLlm text)).length = 500 := by
    show (String.mk ((TtsRoute.cleanTextForTTS env.cleanLlm text).toList.take 497)
        ++ "...").data.length = 500
    rw [String.data_append]
    simp only [List.length_append, List.length_take]
    show min 497 (TtsRoute.cleanTextForTTS env.cleanLlm text).data.length + 3 = 500
    omega
  intro heq
  rw [← heq] at htr
  have : (TtsRoute.cleanTextForTTS env.cleanLlm text).data.length = 500 := htr
  omega

/-- Witness for C10: a cleaning oracle returning a 501-character text. -/
theorem C10_tts_overlength_sent_unchanged_witness :
    (TtsRoute.ttsPOST
        ⟨true, fun _ => .ok (String.mk (List.replicate 501 'a')),
         fun _ _ => .resp 200 1⟩ "Hello." none).2
      = [(TtsRoute.DEFAULT_VOICE_ID,
          TtsRoute.cleanTextForTTS
            (fun _ => .ok (String.mk (List.replicate 501 'a'))) "Hello.")]
    ∧ TtsRoute.cleanTextForTTS
        (fun _ => .ok (String.mk (List.replicate 501 'a'))) "Hello."
      ≠ TtsRoute.truncateForTts
          (TtsRoute.cleanTextForTTS
            (fun _ => .ok (String.mk (List.replicate 501 'a'))) "Hello.") := by
  have h := C10_tts_overlength_sent_unchanged
    ⟨true, fun _ => .ok (String.mk (List.replicate 501 'a')), fun _ _ => .resp 200 1⟩
    "Hello." none (by decide) (by decide) rfl (by decide)
  exact h

end TechMentor
